import Mathlib

set_option autoImplicit false

/-!
Verification of the TeleStorage chunked transfer core.

The definitions below are shallow embeddings of the chunk codec
(`splitFile` / `joinChunks` in `server/tdlib.ts`), the Telegram gateway
guard and wait loops (`TDLibClientImpl` in `server/tdlib.ts`), the
transfer orchestrator (`TelegramService.sendFile` / `downloadFile` in
`server/services/telegram.service.ts`) and the upload entry point of
`server/controllers/files.controller.ts`.  Files are modelled as lists
of bytes, the asynchronous relay as explicit event traces, and fallible
operations return `Except` / `Option`.
-/

namespace TeleStorage

/-- A byte sequence: the contents of a local file, one `Nat` per byte. -/
abbrev Bytes := List Nat

/-- The chunk count computed by `splitFile` in `server/tdlib.ts`:
`Math.ceil(stats.size / chunkSize)`, as ceiling division on `Nat`. -/
def numChunks (size chunkSize : Nat) : Nat :=
  (size + chunkSize - 1) / chunkSize

/-- Shallow embedding of `splitFile` (`server/tdlib.ts`): if the file
fits in one chunk the original file is returned as the single part;
otherwise chunk `i` (for `i` below `numChunks`) is the byte range from
`start = i * chunkSize` up to `end = min (start + chunkSize) size`,
read into a buffer of `end - start` bytes. -/
def splitFile (data : Bytes) (chunkSize : Nat) : List Bytes :=
  if data.length ≤ chunkSize then
    [data]
  else
    (List.range (numChunks data.length chunkSize)).map (fun i =>
      (data.drop (i * chunkSize)).take
        (min (i * chunkSize + chunkSize) data.length - i * chunkSize))

/-- Shallow embedding of `joinChunks` (`server/tdlib.ts`): each chunk is
appended to the output file in list order. -/
def joinChunks (chunks : List Bytes) : Bytes :=
  chunks.flatten

/-- The buffer size `end - start` used by `splitFile` never exceeds the
chunk size, so the chunk is just `take chunkSize` of the file suffix. -/
theorem take_chunk_norm {α : Type} (data : List α) (s c : Nat) :
    (data.drop s).take (min (s + c) data.length - s) = (data.drop s).take c := by
  rw [List.take_eq_take]
  simp only [List.length_drop]
  omega

/-- Joining `n` successive `chunkSize`-slices of a file of size at most
`n * chunkSize` gives back the file. -/
theorem join_range_chunks {α : Type} (c : Nat) :
    ∀ (n : Nat) (data : List α), data.length ≤ n * c →
      ((List.range n).map (fun i => (data.drop (i * c)).take c)).flatten = data := by
  intro n
  induction n with
  | zero =>
    intro data h
    simp only [Nat.zero_mul, Nat.le_zero, List.length_eq_zero] at h
    subst h
    rfl
  | succ n ih =>
    intro data h
    rw [List.range_succ_eq_map, List.map_cons, List.map_map, List.flatten_cons]
    have h1 : (List.range n).map ((fun i => (data.drop (i * c)).take c) ∘ Nat.succ)
        = (List.range n).map (fun i => ((data.drop c).drop (i * c)).take c) := by
      apply List.map_congr_left
      intro i _
      simp only [Function.comp_apply]
      rw [List.drop_drop, Nat.succ_mul, Nat.add_comm]
    have h2 : (data.drop c).length ≤ n * c := by
      simp only [List.length_drop]
      have := Nat.add_mul n 1 c
      omega
    rw [h1, ih (data.drop c) h2]
    simp

/-- A file of `size` bytes fits into `numChunks size c` chunks of `c`
bytes each. -/
theorem le_numChunks_mul (size c : Nat) (hc : 0 < c) :
    size ≤ numChunks size c * c := by
  unfold numChunks
  have h1 := Nat.div_add_mod (size + c - 1) c
  have h2 : (size + c - 1) % c < c := Nat.mod_lt _ hc
  have h3 : (size + c - 1) / c * c = c * ((size + c - 1) / c) := Nat.mul_comm _ _
  omega

/-- `numChunks` chunks are never more than one chunk longer than the
file. -/
theorem numChunks_mul_le (size c : Nat) :
    numChunks size c * c ≤ size + c - 1 := by
  unfold numChunks
  exact Nat.div_mul_le_self _ _

/-- Splitting a file and rejoining the chunks is the identity, for any
positive chunk size. -/
theorem joinChunks_splitFile (data : Bytes) (c : Nat) (hc : 0 < c) :
    joinChunks (splitFile data c) = data := by
  unfold joinChunks splitFile
  by_cases hle : data.length ≤ c
  · simp [hle]
  · rw [if_neg hle]
    have hm : (List.range (numChunks data.length c)).map (fun i =>
          (data.drop (i * c)).take (min (i * c + c) data.length - i * c))
        = (List.range (numChunks data.length c)).map (fun i =>
          (data.drop (i * c)).take c) :=
      List.map_congr_left (fun i _ => take_chunk_norm data (i * c) c)
    rw [hm]
    exact join_range_chunks c _ data (le_numChunks_mul data.length c hc)

/-- C1.  For every file and every positive chunk size, splitting the
file with `splitFile` and then joining the resulting chunk list with
`joinChunks` reproduces the original byte sequence exactly. -/
theorem splitFile_roundTrip (data : Bytes) (c : Nat) (hc : 0 < c) :
    joinChunks (splitFile data c) = data :=
  joinChunks_splitFile data c hc

/-- C1 witness: round trip at the three boundary shapes of the claim,
with chunk size 8: a file of exactly one chunk, of one chunk plus one
byte (two parts, second of length 1), and of `3 * chunkSize - 7` bytes
(three parts, uneven last part). -/
theorem splitFile_roundTrip_cases :
    joinChunks (splitFile (List.range 8) 8) = List.range 8 ∧
    joinChunks (splitFile (List.range 9) 8) = List.range 9 ∧
    joinChunks (splitFile (List.range 17) 8) = List.range 17 ∧
    (splitFile (List.range 8) 8).length = 1 ∧
    (splitFile (List.range 9) 8).map List.length = [8, 1] ∧
    (splitFile (List.range 17) 8).map List.length = [8, 8, 1] :=
  ⟨splitFile_roundTrip (List.range 8) 8 (by decide),
   splitFile_roundTrip (List.range 9) 8 (by decide),
   splitFile_roundTrip (List.range 17) 8 (by decide),
   by decide, by decide, by decide⟩

/-- C2.  Structure of the split plan: a file of at most one chunk is
returned whole as a single part; a larger file is cut into
`numChunks = ceil(size / chunkSize)` parts whose lengths are
`min chunkSize (size - i * chunkSize)` in ascending order of `i`
(contiguous, non-overlapping), whose concatenation is exactly the
file, and whose last part has length
`size - chunkSize * (numChunks - 1)`. -/
theorem splitFile_planStructure (data : Bytes) (c : Nat) (hc : 0 < c) :
    (data.length ≤ c → splitFile data c = [data]) ∧
    (c < data.length →
      (splitFile data c).length = numChunks data.length c ∧
      (splitFile data c).map List.length
        = (List.range (numChunks data.length c)).map
            (fun i => min c (data.length - i * c)) ∧
      joinChunks (splitFile data c) = data ∧
      min c (data.length - (numChunks data.length c - 1) * c)
        = data.length - c * (numChunks data.length c - 1)) := by
  constructor
  · intro hle
    simp [splitFile, hle]
  · intro hlt
    have hle : ¬ data.length ≤ c := Nat.not_le.mpr hlt
    refine ⟨?_, ?_, joinChunks_splitFile data c hc, ?_⟩
    · simp [splitFile, hle]
    · unfold splitFile
      rw [if_neg hle, List.map_map]
      apply List.map_congr_left
      intro i _
      simp only [Function.comp_apply, List.length_take, List.length_drop]
      omega
    · have hA := le_numChunks_mul data.length c hc
      have hB := numChunks_mul_le data.length c
      generalize numChunks data.length c = n at hA hB ⊢
      have hn : 1 ≤ n := by
        rcases Nat.eq_zero_or_pos n with h0 | h1
        · rw [h0, Nat.zero_mul] at hA
          omega
        · exact h1
      obtain ⟨m, rfl⟩ : ∃ m, n = m + 1 := ⟨n - 1, by omega⟩
      have hS : (m + 1 - 1) * c + c = (m + 1) * c := by
        simp [Nat.add_mul]
      rw [Nat.mul_comm c (m + 1 - 1)]
      omega

/-- C2 witness: with chunk size 8, a 5-byte file is one whole part, a
9-byte file is exactly two parts with the second holding one byte. -/
theorem splitFile_planStructure_cases :
    splitFile (List.range 5) 8 = [List.range 5] ∧
    (splitFile (List.range 9) 8).length = 2 ∧
    (splitFile (List.range 9) 8).map List.length = [8, 1] := by
  refine ⟨(splitFile_planStructure (List.range 5) 8 (by decide)).1 (by decide),
    (((splitFile_planStructure (List.range 9) 8 (by decide)).2
      (by decide)).1).trans (by decide), ?_⟩
  have h := (((splitFile_planStructure (List.range 9) 8 (by decide)).2
      (by decide)).2).1
  exact h.trans (by decide)

/-- The caption tag attached to chunk `i` of `n` by
`TelegramService.sendFile` (and searched for by `downloadFile`):
`baseName.partI/N`. -/
def partTag (baseName : String) (i n : Nat) : String :=
  baseName ++ ".part" ++ toString i ++ "/" ++ toString n

/-- The fields of the object returned by one successful
`sendMessageWithFile` call that `TelegramService.sendFile` reads. -/
structure PutResult where
  messageId : String
  fileId : String
  filePath : String
  fileName : String
  fileSize : Nat
  mimeType : String
deriving Repr, DecidableEq

/-- One `sendMessageWithFile` call issued by `sendFile`: the local
chunk path handed over and the caption (tag) given to it. -/
structure PutCall where
  chunkPath : String
  caption : String
deriving Repr, DecidableEq

/-- The record returned by `TelegramService.sendFile`
(`telegram.service.ts`): `messageId` and `channelId` are always
present; the remaining fields are set on the single-part branch and
are absent (`undefined`) on the multi-part branch. -/
structure SendFileReturn where
  messageId : String
  channelId : String
  fileId : Option String
  filePath : Option String
  fileName : Option String
  fileSize : Option Nat
  mimeType : Option String
deriving Repr, DecidableEq

/-- Observable outcome of the per-chunk upload loop of
`TelegramService.sendFile`: the puts issued in order, the successful
results collected in order, the temporary chunk files still on disk
when the loop exits, and the thrown error if a put failed. -/
structure LoopOut where
  calls : List PutCall
  results : List PutResult
  tempChunks : List String
  failure : Option String
deriving Repr, DecidableEq

/-- The multi-part upload loop of `TelegramService.sendFile`
(`telegram.service.ts`): for each chunk in order, await
`sendMessageWithFile(channelId, chunkPath, fileName.partI/N)`; on
success push the result and `unlinkSync` the chunk file, on failure
throw at once, leaving the failed chunk and all later chunks on disk.
`i` is the zero-based loop index, `n` the total chunk count. -/
def sendChunksLoop (fileName : String) (n : Nat)
    (put : String → String → Except String PutResult) :
    Nat → List String → LoopOut
  | _, [] => ⟨[], [], [], none⟩
  | i, chunkPath :: rest =>
    match put chunkPath (partTag fileName (i + 1) n) with
    | Except.error e =>
      ⟨[⟨chunkPath, partTag fileName (i + 1) n⟩], [], chunkPath :: rest, some e⟩
    | Except.ok r =>
      let out := sendChunksLoop fileName n put (i + 1) rest
      ⟨⟨chunkPath, partTag fileName (i + 1) n⟩ :: out.calls,
       r :: out.results, out.tempChunks, out.failure⟩

/-- The multi-part branch of `TelegramService.sendFile`: run the chunk
loop, then return only the messageId of the first result together with
the channel id — every other field of the return record is left
undefined.  Reading `results[0]` of an empty result list is a runtime
error, modelled as an error value. -/
def sendFileMulti (fileName channelId : String) (chunkPaths : List String)
    (put : String → String → Except String PutResult) :
    List PutCall × List String × Except String SendFileReturn :=
  ((sendChunksLoop fileName chunkPaths.length put 0 chunkPaths).calls,
   (sendChunksLoop fileName chunkPaths.length put 0 chunkPaths).tempChunks,
   match (sendChunksLoop fileName chunkPaths.length put 0 chunkPaths).failure with
   | some e => Except.error e
   | none =>
     match (sendChunksLoop fileName chunkPaths.length put 0 chunkPaths).results with
     | [] => Except.error "results[0] is undefined"
     | r :: _ =>
       Except.ok { messageId := r.messageId, channelId := channelId,
                   fileId := none, filePath := none, fileName := none,
                   fileSize := none, mimeType := none })

/-- The single-part branch of `TelegramService.sendFile`: one
`sendMessageWithFile(channelId, filePath, fileName)` call — the
caption is the logical file name — and the full result record is
returned. -/
def sendFileSingle (fileName channelId filePath : String)
    (put : String → String → Except String PutResult) :
    List PutCall × Except String SendFileReturn :=
  match put filePath fileName with
  | Except.error e => ([⟨filePath, fileName⟩], Except.error e)
  | Except.ok r =>
    ([⟨filePath, fileName⟩],
     Except.ok { messageId := r.messageId, channelId := channelId,
                 fileId := some r.fileId, filePath := some r.filePath,
                 fileName := some r.fileName, fileSize := some r.fileSize,
                 mimeType := some r.mimeType })

/-- The Telegram hard size cap used by both `files.controller.ts` and
`TelegramService.sendFile`: 2 GiB. -/
def maxSizeBytes : Nat := 2 * 1024 * 1024 * 1024

/-- The split decision of `TelegramService.sendFile`: the multi-part
branch is taken exactly when the file size strictly exceeds the 2 GiB
cap. -/
def sendFileSplits (size : Nat) : Bool :=
  decide (maxSizeBytes < size)

/-- Unfolding equation for one iteration of the chunk loop. -/
theorem sendChunksLoop_cons (fileName : String) (n : Nat)
    (put : String → String → Except String PutResult)
    (i : Nat) (chunkPath : String) (rest : List String) :
    sendChunksLoop fileName n put i (chunkPath :: rest)
      = match put chunkPath (partTag fileName (i + 1) n) with
        | Except.error e =>
          ⟨[⟨chunkPath, partTag fileName (i + 1) n⟩], [],
           chunkPath :: rest, some e⟩
        | Except.ok r =>
          let out := sendChunksLoop fileName n put (i + 1) rest
          ⟨⟨chunkPath, partTag fileName (i + 1) n⟩ :: out.calls,
           r :: out.results, out.tempChunks, out.failure⟩ := rfl

/-- If every chunk upload succeeds, the loop issues one put per chunk
in list order, each tagged with its ascending one-based part index
over the total count, deletes every chunk file, and records no
failure. -/
theorem sendChunksLoop_allOk (fileName : String) (n : Nat)
    (put : String → String → Except String PutResult) :
    ∀ (rest : List String) (i : Nat),
      (∀ q ∈ rest, ∀ t, ∃ r, put q t = Except.ok r) →
      ((sendChunksLoop fileName n put i rest).calls).map PutCall.chunkPath = rest ∧
      ((sendChunksLoop fileName n put i rest).calls).map PutCall.caption
        = (List.range' (i + 1) rest.length).map (fun j => partTag fileName j n) ∧
      (sendChunksLoop fileName n put i rest).tempChunks = [] ∧
      (sendChunksLoop fileName n put i rest).failure = none := by
  intro rest
  induction rest with
  | nil =>
    intro i _
    exact ⟨rfl, rfl, rfl, rfl⟩
  | cons p rest ih =>
    intro i h
    obtain ⟨r, hr⟩ := h p (List.mem_cons_self p rest) (partTag fileName (i + 1) n)
    have hstep : sendChunksLoop fileName n put i (p :: rest)
        = ⟨⟨p, partTag fileName (i + 1) n⟩
              :: (sendChunksLoop fileName n put (i + 1) rest).calls,
           r :: (sendChunksLoop fileName n put (i + 1) rest).results,
           (sendChunksLoop fileName n put (i + 1) rest).tempChunks,
           (sendChunksLoop fileName n put (i + 1) rest).failure⟩ := by
      rw [sendChunksLoop_cons, hr]
    have ih1 := ih (i + 1) (fun q hq t => h q (List.mem_cons_of_mem p hq) t)
    rw [hstep]
    refine ⟨?_, ?_, ih1.2.2.1, ih1.2.2.2⟩
    · simp only [List.map_cons, ih1.1]
    · simp only [List.map_cons, ih1.2.1, List.length_cons, List.range'_succ]

/-- If every chunk before `c` uploads fine and the put for `c` fails,
the loop stops at `c` with a recorded failure, leaving `c` and every
later chunk file on disk. -/
theorem sendChunksLoop_failRemnant (fileName : String) (n : Nat)
    (put : String → String → Except String PutResult) :
    ∀ (pre : List String) (c : String) (post : List String) (i : Nat),
      (∀ q ∈ pre, ∀ t, ∃ r, put q t = Except.ok r) →
      (∀ t, ∃ e, put c t = Except.error e) →
      (sendChunksLoop fileName n put i (pre ++ c :: post)).tempChunks
        = c :: post ∧
      ∃ e, (sendChunksLoop fileName n put i (pre ++ c :: post)).failure
        = some e := by
  intro pre
  induction pre with
  | nil =>
    intro c post i _ hbad
    obtain ⟨e, he⟩ := hbad (partTag fileName (i + 1) n)
    have hstep : sendChunksLoop fileName n put i (c :: post)
        = ⟨[⟨c, partTag fileName (i + 1) n⟩], [], c :: post, some e⟩ := by
      rw [sendChunksLoop_cons, he]
    rw [List.nil_append, hstep]
    exact ⟨rfl, e, rfl⟩
  | cons q pre ih =>
    intro c post i hok hbad
    obtain ⟨r, hr⟩ := hok q (List.mem_cons_self q pre) (partTag fileName (i + 1) n)
    have hstep : sendChunksLoop fileName n put i (q :: (pre ++ c :: post))
        = ⟨⟨q, partTag fileName (i + 1) n⟩
              :: (sendChunksLoop fileName n put (i + 1) (pre ++ c :: post)).calls,
           r :: (sendChunksLoop fileName n put (i + 1) (pre ++ c :: post)).results,
           (sendChunksLoop fileName n put (i + 1) (pre ++ c :: post)).tempChunks,
           (sendChunksLoop fileName n put (i + 1) (pre ++ c :: post)).failure⟩ := by
      rw [sendChunksLoop_cons, hr]
    rw [List.cons_append, hstep]
    exact ih c post (i + 1) (fun x hx t => hok x (List.mem_cons_of_mem q hx) t) hbad

/-- The result component of `sendFileMulti`, as a standalone
equation. -/
theorem sendFileMulti_result_eq (fileName channelId : String)
    (chunkPaths : List String)
    (put : String → String → Except String PutResult) :
    (sendFileMulti fileName channelId chunkPaths put).2.2
      = (match (sendChunksLoop fileName chunkPaths.length put 0
            chunkPaths).failure with
         | some e => Except.error e
         | none =>
           match (sendChunksLoop fileName chunkPaths.length put 0
              chunkPaths).results with
           | [] => Except.error "results[0] is undefined"
           | r :: _ =>
             Except.ok { messageId := r.messageId, channelId := channelId,
                         fileId := none, filePath := none, fileName := none,
                         fileSize := none, mimeType := none }
         : Except String SendFileReturn) := rfl

/-- C3 counterexample: a completed two-part upload returns a record
carrying only the first part messageId and the channel id; every other
field — in particular `fileSize` — is absent, so no aggregate size is
returned to the caller. -/
theorem sendFileMulti_noAggregateSize :
    (sendFileMulti "f" "chan" ["a", "b"]
        (fun q t => Except.ok ⟨"msg-" ++ q, "id-" ++ q, q, t, 7, "bin"⟩)).2.2
      = Except.ok { messageId := "msg-a", channelId := "chan",
                    fileId := none, filePath := none, fileName := none,
                    fileSize := none, mimeType := none } := rfl

/-- C3 (amended).  For a multi-part upload whose puts all succeed,
`sendFile` issues the per-part puts strictly sequentially in ascending
part order (the call trace is exactly the chunk list in order), tags
the i-th put with `fileName.partI/N`, and on completion returns only
the first part messageId and the channel id (no aggregate size). -/
theorem sendFileMulti_orderedTagsFirstRef (fileName channelId p : String)
    (rest : List String) (put : String → String → Except String PutResult)
    (r0 : PutResult)
    (hok : ∀ q ∈ p :: rest, ∀ t, ∃ r, put q t = Except.ok r)
    (h0 : put p (partTag fileName 1 (rest.length + 1)) = Except.ok r0) :
    (sendFileMulti fileName channelId (p :: rest) put).1.map PutCall.chunkPath
      = p :: rest ∧
    (sendFileMulti fileName channelId (p :: rest) put).1.map PutCall.caption
      = (List.range' 1 (rest.length + 1)).map
          (fun j => partTag fileName j (rest.length + 1)) ∧
    (sendFileMulti fileName channelId (p :: rest) put).2.2 = Except.ok
      { messageId := r0.messageId, channelId := channelId,
        fileId := none, filePath := none, fileName := none,
        fileSize := none, mimeType := none } := by
  have h0' : put p (partTag fileName (0 + 1) (p :: rest).length)
      = Except.ok r0 := by
    simpa using h0
  have hA := sendChunksLoop_allOk fileName (p :: rest).length put rest 1
    (fun q hq t => hok q (List.mem_cons_of_mem p hq) t)
  have hstep : sendChunksLoop fileName (p :: rest).length put 0 (p :: rest)
      = ⟨⟨p, partTag fileName (0 + 1) (p :: rest).length⟩
            :: (sendChunksLoop fileName (p :: rest).length put (0 + 1) rest).calls,
         r0 :: (sendChunksLoop fileName (p :: rest).length put (0 + 1) rest).results,
         (sendChunksLoop fileName (p :: rest).length put (0 + 1) rest).tempChunks,
         (sendChunksLoop fileName (p :: rest).length put (0 + 1) rest).failure⟩ := by
    rw [sendChunksLoop_cons, h0']
  refine ⟨?_, ?_, ?_⟩
  · show ((sendChunksLoop fileName (p :: rest).length put 0 (p :: rest)).calls).map
        PutCall.chunkPath = p :: rest
    rw [hstep]
    simp only [List.map_cons]
    rw [hA.1]
  · show ((sendChunksLoop fileName (p :: rest).length put 0 (p :: rest)).calls).map
        PutCall.caption = _
    rw [hstep]
    simp only [List.map_cons]
    rw [hA.2.1]
    simp [List.range'_succ]
  · rw [sendFileMulti_result_eq, hstep]
    simp only [hA.2.2.2]

/-- C3 witness: a concrete three-chunk upload through an always-ok
gateway — the trace visits the chunks in ascending order with tags
part1/3, part2/3, part3/3, and the return record carries the first
part messageId only. -/
theorem sendFileMulti_orderedTagsFirstRef_cases :
    (sendFileMulti "doc" "c0" ["x", "y", "z"]
        (fun q t => Except.ok ⟨"m-" ++ q ++ t, q, q, t, 3, "bin"⟩)).1.map
          PutCall.caption
      = ["doc.part1/3", "doc.part2/3", "doc.part3/3"] := by
  have h := sendFileMulti_orderedTagsFirstRef "doc" "c0" "x" ["y", "z"]
    (fun q t => Except.ok ⟨"m-" ++ q ++ t, q, q, t, 3, "bin"⟩)
    ⟨"m-" ++ "x" ++ partTag "doc" 1 3, "x", "x", partTag "doc" 1 3, 3, "bin"⟩
    (fun q _ t => ⟨⟨"m-" ++ q ++ t, q, q, t, 3, "bin"⟩, rfl⟩) rfl
  exact h.2.1.trans (by decide)

/-- C5 counterexample: a three-chunk upload whose second put fails
terminally reports the failure while the second and third temporary
chunk files are still on disk — they are not cleaned up. -/
theorem sendFileMulti_failureLeavesChunks :
    (sendFileMulti "f" "chan" ["c1", "c2", "c3"]
        (fun q _ => if q = "c1"
          then Except.ok ⟨"m1", "i1", "p1", "n1", 1, "t1"⟩
          else Except.error "send failed")).2.1 = ["c2", "c3"] ∧
    (sendFileMulti "f" "chan" ["c1", "c2", "c3"]
        (fun q _ => if q = "c1"
          then Except.ok ⟨"m1", "i1", "p1", "n1", 1, "t1"⟩
          else Except.error "send failed")).2.2
      = Except.error "send failed" := ⟨rfl, rfl⟩

/-- C5 (amended).  On a fully successful multi-part upload every
temporary chunk is deleted (each right after its put succeeds), but
when a put fails terminally mid-transfer the failing chunk and all
later not-yet-uploaded chunks remain on disk while the transfer
reports failure — the failure path performs no cleanup. -/
theorem sendFileMulti_cleanup (fileName channelId : String)
    (put : String → String → Except String PutResult) :
    (∀ chunkPaths : List String,
       (∀ q ∈ chunkPaths, ∀ t, ∃ r, put q t = Except.ok r) →
       (sendFileMulti fileName channelId chunkPaths put).2.1 = []) ∧
    (∀ (pre : List String) (c : String) (post : List String),
       (∀ q ∈ pre, ∀ t, ∃ r, put q t = Except.ok r) →
       (∀ t, ∃ e, put c t = Except.error e) →
       (sendFileMulti fileName channelId (pre ++ c :: post) put).2.1
         = c :: post ∧
       ∃ e, (sendFileMulti fileName channelId (pre ++ c :: post) put).2.2
         = Except.error e) := by
  constructor
  · intro chunkPaths h
    exact (sendChunksLoop_allOk fileName chunkPaths.length put
      chunkPaths 0 h).2.2.1
  · intro pre c post hok hbad
    have h := sendChunksLoop_failRemnant fileName (pre ++ c :: post).length put
      pre c post 0 hok hbad
    obtain ⟨e, he⟩ := h.2
    refine ⟨h.1, e, ?_⟩
    rw [sendFileMulti_result_eq, he]

/-- C5 witness: a two-chunk upload through an always-ok gateway leaves
no temporary chunk behind, and the failing run of the amended second
part at a concrete gateway leaves exactly the failed tail. -/
theorem sendFileMulti_cleanup_cases :
    (sendFileMulti "g" "chan" ["a", "b"]
        (fun q t => Except.ok ⟨q, t, q, t, 2, "x"⟩)).2.1 = [] ∧
    (sendFileMulti "g" "chan" ["ok1", "bad", "tail"]
        (fun q _ => if q = "bad" then Except.error "boom"
          else Except.ok ⟨q, q, q, q, 2, "x"⟩)).2.1 = ["bad", "tail"] := by
  constructor
  · exact (sendFileMulti_cleanup "g" "chan"
      (fun q t => Except.ok ⟨q, t, q, t, 2, "x"⟩)).1 ["a", "b"]
      (fun q _ t => ⟨⟨q, t, q, t, 2, "x"⟩, rfl⟩)
  · exact ((sendFileMulti_cleanup "g" "chan"
      (fun q _ => if q = "bad" then Except.error "boom"
        else Except.ok ⟨q, q, q, q, 2, "x"⟩)).2 ["ok1"] "bad" ["tail"]
      (fun q hq t => ⟨⟨q, q, q, q, 2, "x"⟩, by
        simp only [List.mem_singleton] at hq
        subst hq
        rfl⟩)
      (fun t => ⟨"boom", rfl⟩)).1

/-- C7 counterexample: on the single-part branch the one put issued
carries the logical file name as its caption — not the empty string. -/
theorem sendFileSingle_tagNotEmpty :
    (sendFileSingle "movie.mkv" "chan" "/tmp/u/movie.mkv"
        (fun q t => Except.ok ⟨"m1", "fid7", q, t, 42, "video"⟩)).1
      = [⟨"/tmp/u/movie.mkv", "movie.mkv"⟩] ∧
    ("movie.mkv" : String) ≠ "" := ⟨rfl, by decide⟩

/-- C7 (amended).  A single-part upload issues exactly one put, whose
tag is the logical file name (not the empty string), and completes
with that part remote reference and size. -/
theorem sendFileSingle_onePutNameTag (fileName channelId filePath : String)
    (g : String → String → PutResult) :
    (sendFileSingle fileName channelId filePath
        (fun q t => Except.ok (g q t))).1 = [⟨filePath, fileName⟩] ∧
    (sendFileSingle fileName channelId filePath
        (fun q t => Except.ok (g q t))).2
      = Except.ok
        { messageId := (g filePath fileName).messageId,
          channelId := channelId,
          fileId := some (g filePath fileName).fileId,
          filePath := some (g filePath fileName).filePath,
          fileName := some (g filePath fileName).fileName,
          fileSize := some (g filePath fileName).fileSize,
          mimeType := some (g filePath fileName).mimeType } := ⟨rfl, rfl⟩

/-- Responses of `filesController.uploadFile` up to the point where
`telegramService.sendFile` would be called. -/
inductive ControllerResponse where
  | unauthorized
  | noFile
  | fileTooLarge
  | quotaExceeded
  | sendFileInvoked (size : Nat)
deriving Repr, DecidableEq

/-- `filesController.uploadFile` (`files.controller.ts`) up to the
`telegramService.sendFile` call: the authentication check, the file
presence check, the 2 GiB size rejection, then the quota check; the
first failing check responds immediately and `sendFile` is never
reached. -/
def uploadFileController (authed : Bool) (file : Option Nat)
    (quotaOk : Bool) : ControllerResponse :=
  if !authed then ControllerResponse.unauthorized
  else
    match file with
    | none => ControllerResponse.noFile
    | some size =>
      if maxSizeBytes < size then ControllerResponse.fileTooLarge
      else if !quotaOk then ControllerResponse.quotaExceeded
      else ControllerResponse.sendFileInvoked size

/-- C8.  A request whose file size exceeds the 2 GiB cap is rejected
by the controller with the File-too-large response — `sendFile` is
never invoked for it — and any size that does reach `sendFile` through
the controller fails the split condition, so the multi-part branch is
unreachable from the public upload entry point. -/
theorem uploadController_blocksMultiPart (size : Nat) (quotaOk : Bool)
    (hsize : maxSizeBytes < size) :
    uploadFileController true (some size) quotaOk
      = ControllerResponse.fileTooLarge ∧
    (∀ (authed : Bool) (sz : Nat),
       uploadFileController authed (some size) quotaOk
         ≠ ControllerResponse.sendFileInvoked sz) ∧
    (∀ (authed : Bool) (file : Option Nat) (q : Bool) (sz : Nat),
       uploadFileController authed file q
         = ControllerResponse.sendFileInvoked sz →
       sendFileSplits sz = false) := by
  refine ⟨?_, ?_, ?_⟩
  · simp [uploadFileController, hsize]
  · intro authed sz
    cases authed with
    | false => simp [uploadFileController]
    | true => simp [uploadFileController, hsize]
  · intro authed file q sz h
    cases authed with
    | false => simp [uploadFileController] at h
    | true =>
      cases file with
      | none => simp [uploadFileController] at h
      | some s =>
        by_cases hs : maxSizeBytes < s
        · simp [uploadFileController, hs] at h
        · cases q with
          | false => simp [uploadFileController, hs] at h
          | true =>
            simp [uploadFileController, hs] at h
            subst h
            simp [sendFileSplits, hs]

/-- C8 witness: a file one byte over the 2 GiB cap is rejected as too
large by the controller. -/
theorem uploadController_blocksMultiPart_witness :
    uploadFileController true (some (maxSizeBytes + 1)) true
      = ControllerResponse.fileTooLarge :=
  (uploadController_blocksMultiPart (maxSizeBytes + 1) true
    (Nat.lt_succ_self maxSizeBytes)).1

/-- JavaScript sparse-array assignment `arr[i] = v`: missing positions
up to `i` hold `undefined` (`none`). -/
def jsSet {α : Type} (l : List (Option α)) (i : Nat) (v : α) : List (Option α) :=
  if i < l.length then l.set i (some v)
  else l ++ List.replicate (i - l.length) none ++ [some v]

/-- `joinChunks` over a possibly sparse chunk list, as called by
`TelegramService.downloadFile`: chunks are appended in list order and
reading an `undefined` entry (`readFileSync(undefined)`) throws. -/
def joinChunksSparse : List (Option Bytes) → Except String Bytes
  | [] => Except.ok []
  | none :: _ => Except.error "readFileSync of undefined"
  | some chunk :: rest =>
    match joinChunksSparse rest with
    | Except.error e => Except.error e
    | Except.ok tail => Except.ok (chunk ++ tail)

/-- The sibling-collection loop of `TelegramService.downloadFile`
(`telegram.service.ts`): for each part index from 1 to `totalParts`,
the already-referenced part is skipped; every other index is looked up
with `searchChatMessages` for the expected sibling tag (limit 1) —
zero results throws `Could not find part i of the file`, otherwise the
first match is downloaded into chunk slot `i - 1`.  `search` returns
the chunk contents of the messages whose caption matches the query
(relay search with the per-message document download abstracted to its
bytes). -/
def fillSiblings (baseName : String) (partNumber totalParts : Nat)
    (search : String → List Bytes) :
    List Nat → List (Option Bytes) → Except String (List (Option Bytes))
  | [], arr => Except.ok arr
  | i :: rest, arr =>
    if i = partNumber then
      fillSiblings baseName partNumber totalParts search rest arr
    else
      match search (partTag baseName i totalParts) with
      | [] =>
        Except.error ("Could not find part " ++ toString i ++ " of the file")
      | chunk :: _ =>
        fillSiblings baseName partNumber totalParts search rest
          (jsSet arr (i - 1) chunk)

/-- The multi-part branch of `TelegramService.downloadFile`: the
referenced part (tagged `partNumber/totalParts`, contents `current`)
is stored at slot `partNumber - 1`, the sibling loop fills the other
slots by tag search, and the chunk list is then handed to
`joinChunks`. -/
def downloadFileMulti (baseName : String) (partNumber totalParts : Nat)
    (current : Bytes) (search : String → List Bytes) : Except String Bytes :=
  match fillSiblings baseName partNumber totalParts search
      (List.range' 1 totalParts) (jsSet [] (partNumber - 1) current) with
  | Except.error e => Except.error e
  | Except.ok arr => joinChunksSparse arr

/-- Session state of `TDLibClientImpl` (`server/tdlib.ts`): whether
`this.client` is set and whether authentication has completed. -/
structure GatewayState where
  clientInitialized : Bool
  authenticated : Bool
deriving Repr, DecidableEq

/-- What a gateway method does before any remote work: fail fast with
an error message and code, or go on and invoke the relay. -/
inductive GuardOutcome where
  | failFast (message : String) (code : Nat)
  | attemptRemote
deriving Repr, DecidableEq

/-- The guard of `TDLibClientImpl.send`: only the client-initialized
check runs before `client.invoke` is attempted. -/
def sendGuard (s : GatewayState) : GuardOutcome :=
  if !s.clientInitialized then
    GuardOutcome.failFast "TDLib client not initialized" 500
  else GuardOutcome.attemptRemote

/-- The guard shared by `TDLibClientImpl.uploadFile`, `downloadFile`,
`getFile` and `sendMessageWithFile`: the client-initialized check,
then the authentication check, before any remote work. -/
def authOpGuard (s : GatewayState) : GuardOutcome :=
  if !s.clientInitialized then
    GuardOutcome.failFast "TDLib client not initialized" 500
  else if !s.authenticated then
    GuardOutcome.failFast "Not authenticated" 401
  else GuardOutcome.attemptRemote

/-- One `updateFile` event as observed by the wait loops of
`TDLibClientImpl`: milliseconds since the wait began, the file id the
update concerns, the two progress flags of `file.local`, whether the
local path exists on disk, and the byte count found there. -/
structure FileUpdate where
  time : Nat
  fileId : Nat
  isDownloadingCompleted : Bool
  isDownloadingActive : Bool
  pathExists : Bool
  sizeOnDisk : Nat
deriving Repr, DecidableEq

/-- The wait promise inside `TDLibClientImpl.uploadFile`
(`server/tdlib.ts`): it subscribes to `updateFile` events for the
uploaded file id and settles ok on a completed update, rejects on a
neither-active-nor-completed update, and keeps waiting otherwise.
There is no timeout: a trace (in event order) without a settling event
leaves the promise pending forever, modelled as `none`. -/
def uploadWait (fileId : Nat) : List FileUpdate → Option (Except String Unit)
  | [] => none
  | e :: rest =>
    if e.fileId = fileId then
      if e.isDownloadingCompleted && !e.isDownloadingActive then
        some (Except.ok ())
      else if !e.isDownloadingCompleted && e.isDownloadingActive then
        uploadWait fileId rest
      else if !e.isDownloadingCompleted && !e.isDownloadingActive then
        some (Except.error "File upload failed")
      else uploadWait fileId rest
    else uploadWait fileId rest

/-- Possible outcomes of the `downloadFile` wait promise. -/
inductive DownloadOutcome where
  | success
  | verificationFailed
  | downloadFailed
  | timeout
deriving Repr, DecidableEq

/-- The timeout budget of the `downloadFile` wait
(`timeoutDuration = 300000` ms, five minutes). -/
def downloadTimeoutMs : Nat := 300000

/-- The wait promise inside `TDLibClientImpl.downloadFile`
(`server/tdlib.ts`): a `setTimeout` of `downloadTimeoutMs` races the
`updateFile` subscription.  An event settles the wait only if it fires
before the timeout and concerns the awaited file id; a completed
update is verified — the local path must exist with exactly the
declared byte count, else the wait rejects with the verification
failure — and a neither-active-nor-completed update rejects as a
failed download.  The trace is in ascending time order. -/
def downloadWait (fileId expectedSize : Nat) :
    List FileUpdate → DownloadOutcome
  | [] => DownloadOutcome.timeout
  | e :: rest =>
    if downloadTimeoutMs ≤ e.time then DownloadOutcome.timeout
    else if e.fileId = fileId then
      if e.isDownloadingCompleted then
        if e.pathExists && decide (e.sizeOnDisk = expectedSize) then
          DownloadOutcome.success
        else DownloadOutcome.verificationFailed
      else if !e.isDownloadingActive && !e.isDownloadingCompleted then
        DownloadOutcome.downloadFailed
      else downloadWait fileId expectedSize rest
    else downloadWait fileId expectedSize rest

/-- Unfolding equation for one iteration of the sibling loop. -/
theorem fillSiblings_cons (baseName : String) (partNumber totalParts : Nat)
    (search : String → List Bytes) (i : Nat) (rest : List Nat)
    (arr : List (Option Bytes)) :
    fillSiblings baseName partNumber totalParts search (i :: rest) arr
      = (if i = partNumber then
          fillSiblings baseName partNumber totalParts search rest arr
        else
          match search (partTag baseName i totalParts) with
          | [] =>
            Except.error ("Could not find part " ++ toString i ++ " of the file")
          | chunk :: _ =>
            fillSiblings baseName partNumber totalParts search rest
              (jsSet arr (i - 1) chunk)) := rfl

/-- Unfolding equation for `joinChunksSparse` at a present chunk. -/
theorem joinChunksSparse_cons_some (chunk : Bytes)
    (rest : List (Option Bytes)) :
    joinChunksSparse (some chunk :: rest)
      = (match joinChunksSparse rest with
         | Except.error e => Except.error e
         | Except.ok tail => Except.ok (chunk ++ tail)) := rfl

/-- If some needed sibling index has an empty search result, the
sibling loop throws, no matter what was already collected. -/
theorem fillSiblings_missing (baseName : String) (partNumber totalParts : Nat)
    (search : String → List Bytes) :
    ∀ (idxs : List Nat) (arr : List (Option Bytes)) (j : Nat),
      j ∈ idxs → j ≠ partNumber →
      search (partTag baseName j totalParts) = [] →
      ∃ e, fillSiblings baseName partNumber totalParts search idxs arr
        = Except.error e := by
  intro idxs
  induction idxs with
  | nil =>
    intro arr j hj _ _
    exact absurd hj (List.not_mem_nil j)
  | cons i rest ih =>
    intro arr j hj hjp hmiss
    rw [fillSiblings_cons]
    by_cases hip : i = partNumber
    · rw [if_pos hip]
      refine ih arr j ?_ hjp hmiss
      rcases List.mem_cons.mp hj with h0 | h0
      · exact absurd (h0.trans hip) hjp
      · exact h0
    · rw [if_neg hip]
      by_cases hij : i = j
      · subst hij
        rw [hmiss]
        exact ⟨_, rfl⟩
      · cases hsearch : search (partTag baseName i totalParts) with
        | nil =>
          exact ⟨_, rfl⟩
        | cons chunk tl =>
          refine ih _ j ?_ hjp hmiss
          rcases List.mem_cons.mp hj with h0 | h0
          · exact absurd h0.symm hij
          · exact h0

/-- A chunk list with a hole makes `joinChunks` throw. -/
theorem joinChunksSparse_gap :
    ∀ arr : List (Option Bytes), none ∈ arr →
      ∃ e, joinChunksSparse arr = Except.error e := by
  intro arr
  induction arr with
  | nil =>
    intro h
    exact absurd h (List.not_mem_nil none)
  | cons o rest ih =>
    intro h
    cases o with
    | none => exact ⟨_, rfl⟩
    | some chunk =>
      have hr : none ∈ rest := by
        rcases List.mem_cons.mp h with h0 | h0
        · exact absurd h0 (by simp)
        · exact h0
      obtain ⟨e, he⟩ := ih hr
      refine ⟨e, ?_⟩
      rw [joinChunksSparse_cons_some, he]

/-- C4.  If the sibling search comes back empty for any other needed
part index, the multi-part download fails with an error — it never
returns an output file — and a chunk list with a gap makes the
reassembly step itself throw rather than emit a truncated file. -/
theorem downloadFileMulti_missingSibling (baseName : String)
    (partNumber totalParts : Nat) (current : Bytes)
    (search : String → List Bytes) (j : Nat)
    (hj1 : 1 ≤ j) (hj2 : j ≤ totalParts) (hjp : j ≠ partNumber)
    (hmiss : search (partTag baseName j totalParts) = []) :
    (∃ e, downloadFileMulti baseName partNumber totalParts current search
        = Except.error e) ∧
    (∀ out, downloadFileMulti baseName partNumber totalParts current search
        ≠ Except.ok out) ∧
    (∀ arr : List (Option Bytes), none ∈ arr →
       ∃ e, joinChunksSparse arr = Except.error e) := by
  have hjmem : j ∈ List.range' 1 totalParts := by
    rw [List.mem_range'_1]
    omega
  obtain ⟨e, he⟩ := fillSiblings_missing baseName partNumber totalParts search
    (List.range' 1 totalParts) (jsSet [] (partNumber - 1) current) j
    hjmem hjp hmiss
  refine ⟨⟨e, ?_⟩, ?_, joinChunksSparse_gap⟩
  · unfold downloadFileMulti
    rw [he]
  · intro out hout
    unfold downloadFileMulti at hout
    rw [he] at hout
    exact Except.noConfusion hout

/-- C4 witness: a part tagged 2/3 whose channel search finds no other
part — the download errors out instead of producing any file. -/
theorem downloadFileMulti_missingSibling_case :
    ∃ e, downloadFileMulti "f" 2 3 [9, 9] (fun _ => [])
      = Except.error e :=
  (downloadFileMulti_missingSibling "f" 2 3 [9, 9] (fun _ => []) 1
    (by decide) (by decide) (by decide) rfl).1

/-- C6 (defect witness): the upload wait promise never settles when
the relay emits no completion event for the uploaded file — there is
no timeout branch.  An empty update trace, and a trace holding only an
unrelated completed event plus a progress event for the awaited file,
both leave the promise pending. -/
theorem uploadWait_neverFires_pending :
    uploadWait 7 [] = none ∧
    uploadWait 7 [⟨0, 9, true, false, true, 5⟩,
                  ⟨1000, 7, false, true, false, 0⟩] = none := ⟨rfl, rfl⟩

/-- Unfolding equation for one event of the download wait. -/
theorem downloadWait_cons (fileId expectedSize : Nat) (e : FileUpdate)
    (rest : List FileUpdate) :
    downloadWait fileId expectedSize (e :: rest)
      = (if downloadTimeoutMs ≤ e.time then DownloadOutcome.timeout
        else if e.fileId = fileId then
          if e.isDownloadingCompleted then
            if e.pathExists && decide (e.sizeOnDisk = expectedSize) then
              DownloadOutcome.success
            else DownloadOutcome.verificationFailed
          else if !e.isDownloadingActive && !e.isDownloadingCompleted then
            DownloadOutcome.downloadFailed
          else downloadWait fileId expectedSize rest
        else downloadWait fileId expectedSize rest) := rfl

/-- C9.  The download wait times out when no event settles it inside
the five-minute budget (a stall), it reports success only when some
in-budget event for the awaited file declares the download complete
and the local copy is verified to hold exactly the declared byte
count, and a completed event whose local copy fails that verification
settles the wait with the verification failure. -/
theorem downloadWait_spec (fileId expectedSize : Nat) :
    (∀ trace : List FileUpdate,
       (∀ e ∈ trace, downloadTimeoutMs ≤ e.time ∨ e.fileId ≠ fileId ∨
         (e.isDownloadingCompleted = false ∧ e.isDownloadingActive = true)) →
       downloadWait fileId expectedSize trace = DownloadOutcome.timeout) ∧
    (∀ trace : List FileUpdate,
       downloadWait fileId expectedSize trace = DownloadOutcome.success →
       ∃ e ∈ trace, e.time < downloadTimeoutMs ∧ e.fileId = fileId ∧
         e.isDownloadingCompleted = true ∧ e.pathExists = true ∧
         e.sizeOnDisk = expectedSize) ∧
    (∀ (e : FileUpdate) (rest : List FileUpdate),
       e.time < downloadTimeoutMs → e.fileId = fileId →
       e.isDownloadingCompleted = true →
       (e.pathExists = false ∨ e.sizeOnDisk ≠ expectedSize) →
       downloadWait fileId expectedSize (e :: rest)
         = DownloadOutcome.verificationFailed) := by
  refine ⟨?_, ?_, ?_⟩
  · intro trace
    induction trace with
    | nil => intro _; rfl
    | cons e rest ih =>
      intro h
      rw [downloadWait_cons]
      rcases h e (List.mem_cons_self e rest) with h0 | h0 | h0
      · rw [if_pos h0]
      · by_cases ht : downloadTimeoutMs ≤ e.time
        · rw [if_pos ht]
        · rw [if_neg ht, if_neg h0]
          exact ih (fun x hx => h x (List.mem_cons_of_mem e hx))
      · by_cases ht : downloadTimeoutMs ≤ e.time
        · rw [if_pos ht]
        · rw [if_neg ht]
          by_cases hid : e.fileId = fileId
          · rw [if_pos hid, h0.1, h0.2]
            simp only [Bool.not_true, Bool.false_and, if_false]
            exact ih (fun x hx => h x (List.mem_cons_of_mem e hx))
          · rw [if_neg hid]
            exact ih (fun x hx => h x (List.mem_cons_of_mem e hx))
  · intro trace
    induction trace with
    | nil =>
      intro h
      exact DownloadOutcome.noConfusion h
    | cons e rest ih =>
      intro h
      rw [downloadWait_cons] at h
      by_cases ht : downloadTimeoutMs ≤ e.time
      · rw [if_pos ht] at h
        exact absurd h (by decide)
      · rw [if_neg ht] at h
        by_cases hid : e.fileId = fileId
        · rw [if_pos hid] at h
          by_cases hc : e.isDownloadingCompleted = true
          · rw [if_pos hc] at h
            by_cases hv : (e.pathExists && decide (e.sizeOnDisk = expectedSize))
                = true
            · refine ⟨e, List.mem_cons_self e rest, by omega, hid, hc, ?_, ?_⟩
              · exact (Bool.and_eq_true _ _ |>.mp hv).1
              · exact of_decide_eq_true (Bool.and_eq_true _ _ |>.mp hv).2
            · rw [if_neg hv] at h
              exact absurd h (by decide)
          · rw [if_neg hc] at h
            by_cases hf : (!e.isDownloadingActive && !e.isDownloadingCompleted)
                = true
            · rw [if_pos hf] at h
              exact absurd h (by decide)
            · rw [if_neg hf] at h
              obtain ⟨x, hx, hrest⟩ := ih h
              exact ⟨x, List.mem_cons_of_mem e hx, hrest⟩
        · rw [if_neg hid] at h
          obtain ⟨x, hx, hrest⟩ := ih h
          exact ⟨x, List.mem_cons_of_mem e hx, hrest⟩
  · intro e rest ht hid hc hv
    rw [downloadWait_cons, if_neg (by omega), if_pos hid, if_pos hc,
      if_neg ?_]
    rcases hv with h0 | h0
    · rw [h0]
      simp
    · simp only [Bool.and_eq_true, decide_eq_true_eq]
      rintro ⟨-, h1⟩
      exact h0 h1

/-- C9 witness: an in-budget progress-only trace times out; a
completed in-budget event with the declared size yields success with
the verified event; a completed event with a one-byte-short copy
fails verification. -/
theorem downloadWait_spec_cases :
    downloadWait 1 10 [⟨10, 1, false, true, false, 0⟩]
      = DownloadOutcome.timeout ∧
    (∃ e ∈ [(⟨5, 1, true, false, true, 10⟩ : FileUpdate)],
       e.time < downloadTimeoutMs ∧ e.fileId = 1 ∧
       e.isDownloadingCompleted = true ∧ e.pathExists = true ∧
       e.sizeOnDisk = 10) ∧
    downloadWait 1 10 [⟨5, 1, true, false, true, 9⟩]
      = DownloadOutcome.verificationFailed :=
  ⟨(downloadWait_spec 1 10).1 _ (by decide),
   (downloadWait_spec 1 10).2.1 _ (by decide),
   (downloadWait_spec 1 10).2.2 ⟨5, 1, true, false, true, 9⟩ []
     (by decide) rfl rfl (Or.inr (by decide))⟩

/-- C10 counterexample: with an initialized client whose session is
not authenticated, `send` does not fail fast — it goes on to invoke
the relay. -/
theorem sendGuard_ignoresAuth :
    sendGuard ⟨true, false⟩ = GuardOutcome.attemptRemote := rfl

/-- C10 (amended).  In an unauthenticated session the upload,
download, getFile and send-message-with-file operations fail fast
before any remote work — with the Not-authenticated error when the
client object exists, and with the not-initialized error otherwise —
while `send` (used for message fetch and sibling search) checks only
client initialization and attempts the remote call even when
unauthenticated. -/
theorem gatewayGuards_spec (s : GatewayState)
    (h : s.authenticated = false) :
    (s.clientInitialized = true →
       authOpGuard s = GuardOutcome.failFast "Not authenticated" 401 ∧
       sendGuard s = GuardOutcome.attemptRemote) ∧
    (s.clientInitialized = false →
       authOpGuard s
         = GuardOutcome.failFast "TDLib client not initialized" 500 ∧
       sendGuard s
         = GuardOutcome.failFast "TDLib client not initialized" 500) := by
  cases s with
  | mk ci au =>
    simp only at h
    subst h
    constructor
    · intro hci
      simp only at hci
      subst hci
      exact ⟨rfl, rfl⟩
    · intro hci
      simp only at hci
      subst hci
      exact ⟨rfl, rfl⟩

/-- C10 witness: the authenticated-check failure of `uploadFile` at an
initialized unauthenticated session, and the initialization failure of
`send` at an uninitialized one. -/
theorem gatewayGuards_spec_cases :
    authOpGuard ⟨true, false⟩ = GuardOutcome.failFast "Not authenticated" 401 ∧
    sendGuard ⟨false, false⟩
      = GuardOutcome.failFast "TDLib client not initialized" 500 :=
  ⟨((gatewayGuards_spec ⟨true, false⟩ rfl).1 rfl).1,
   ((gatewayGuards_spec ⟨false, false⟩ rfl).2 rfl).2⟩

end TeleStorage
